import Mathlib

/-!
Verification of the ecds key-value store (src/keyvalue.rs).

The Rust module pairs a `WritableHashMap` (authoritative map plus the sender
end of an mpsc channel) with a `ReadOnlyHashMap` (replica map plus the
receiver end).  Mutations are forwarded as `Action` records; the reader lazily
drains the channel before answering each query.

The embedding below models:
  - the `Action` enum verbatim;
  - `HashMap<K, V>` as an association list with the usual insert / remove /
    get / contains_key / clear operations (first binding wins on lookup;
    insert erases the old binding);
  - the mpsc channel as a FIFO list of pending records plus two liveness
    flags (`senderAlive`, `receiverAlive`); `send` succeeds exactly when the
    receiver end is alive, `tryRecv` pops the head, reporting `empty` when the
    queue is empty and the sender is alive and `disconnected` when the queue
    is empty and the sender is gone.  The `sent` field is a ghost history
    variable (not present in the Rust code, never read by any operation)
    recording every successfully sent record in order;
  - each handle method as a pure state-passing function, in the same
    statement order as the Rust source (in particular `insert` and `remove`
    send before touching the local map, while `clear` clears first);
  - a whole-system transition relation `Step` covering every operation plus
    dropping either handle, for the temporal claims.
-/

set_option autoImplicit false

namespace Ecds

/-- The error kind.  Modelled from the spec: the errors module of the
repository is not under src/; the spec defines a single error kind,
Disconnected, and keyvalue.rs only ever constructs that kind. -/
inductive EcdsError where
  | disconnected
  deriving DecidableEq

/-- The mutation record: enum Action<K, V> in keyvalue.rs. -/
inductive Action (K V : Type) where
  | add (k : K) (v : V)
  | remove (k : K)
  | clear
  deriving DecidableEq

/-- A HashMap<K, V> is modelled as an association list. -/
abbrev Map (K V : Type) := List (K × V)

/-- HashMap::get: the value bound to the first occurrence of the key. -/
def mapGet {K V : Type} [DecidableEq K] : Map K V → K → Option V
  | [], _ => none
  | (k', v) :: rest, k => if k' = k then some v else mapGet rest k

/-- Removing every binding of a key (HashMap::remove's effect on the map). -/
def mapErase {K V : Type} [DecidableEq K] : Map K V → K → Map K V
  | [], _ => []
  | (k', v) :: rest, k => if k' = k then mapErase rest k else (k', v) :: mapErase rest k

/-- HashMap::insert's effect on the map: bind the key to the new value,
dropping any previous binding.  (The Rust method also returns the previous
value; the handle operations below model that with mapGet.) -/
def mapInsert {K V : Type} [DecidableEq K] (m : Map K V) (k : K) (v : V) : Map K V :=
  (k, v) :: mapErase m k

/-- HashMap::contains_key. -/
def mapContains {K V : Type} [DecidableEq K] (m : Map K V) (k : K) : Bool :=
  (mapGet m k).isSome

/-- The mpsc channel connecting the two handles: pending FIFO queue, the two
ends' liveness, and the ghost history of successfully sent records. -/
structure Channel (K V : Type) where
  queue : List (Action K V)
  senderAlive : Bool
  receiverAlive : Bool
  sent : List (Action K V)
  deriving DecidableEq

/-- Sender::send: enqueues iff the receiver end is still alive, otherwise
fails (returning none models Err(SendError)). -/
def Channel.send {K V : Type} (ch : Channel K V) (a : Action K V) : Option (Channel K V) :=
  if ch.receiverAlive then
    some { ch with queue := ch.queue ++ [a], sent := ch.sent ++ [a] }
  else
    none

/-- The two error outcomes of Receiver::try_recv. -/
inductive TryRecvError where
  | empty
  | disconnected
  deriving DecidableEq

/-- Receiver::try_recv: pops the head of the queue when one is pending;
on an empty queue reports Empty while the sender is alive and Disconnected
once the sender is gone (queued records are still delivered first). -/
def Channel.tryRecv {K V : Type} (ch : Channel K V) :
    Except TryRecvError (Action K V × Channel K V) :=
  match ch.queue with
  | a :: rest => .ok (a, { ch with queue := rest })
  | [] => if ch.senderAlive then .error .empty else .error .disconnected

/-- WritableHashMap::insert: sends Action::Add first; only when the send
succeeds does the closure in .map run self.hashmap.insert(k, v), whose
return value (the previous binding) becomes the Ok payload.  A failed send
is mapped to Disconnected and leaves the local map untouched. -/
def WritableHashMap.insert {K V : Type} [DecidableEq K] (w : Map K V) (ch : Channel K V)
    (k : K) (v : V) : Except EcdsError (Option V) × Map K V × Channel K V :=
  match ch.send (Action.add k v) with
  | some ch' => (.ok (mapGet w k), mapInsert w k v, ch')
  | none => (.error .disconnected, w, ch)

/-- WritableHashMap::remove: sends Action::Remove first; only on success does
self.hashmap.remove(&k) run, returning the removed value. -/
def WritableHashMap.remove {K V : Type} [DecidableEq K] (w : Map K V) (ch : Channel K V)
    (k : K) : Except EcdsError (Option V) × Map K V × Channel K V :=
  match ch.send (Action.remove k) with
  | some ch' => (.ok (mapGet w k), mapErase w k, ch')
  | none => (.error .disconnected, w, ch)

/-- WritableHashMap::clear: clears the local map first, then sends
Action::Clear, mapping a failed send to Disconnected. -/
def WritableHashMap.clear {K V : Type} [DecidableEq K] (w : Map K V) (ch : Channel K V) :
    Except EcdsError Unit × Map K V × Channel K V :=
  match ch.send Action.clear with
  | some ch' => (.ok (), ([] : Map K V), ch')
  | none => (.error .disconnected, ([] : Map K V), ch)

/-- WritableHashMap::get (local-only, cannot fail). -/
def WritableHashMap.get {K V : Type} [DecidableEq K] (w : Map K V) (k : K) : Option V :=
  mapGet w k

/-- WritableHashMap::contains_key (local-only, cannot fail). -/
def WritableHashMap.containsKey {K V : Type} [DecidableEq K] (w : Map K V) (k : K) : Bool :=
  mapContains w k

/-- ReadOnlyHashMap::process_changes: loop on try_recv, applying each
received record to the replica; return Ok on Empty and Disconnected on
Disconnected.  Replica mutations made before an error persist (the RefCell
is not rolled back). -/
def ReadOnlyHashMap.processChanges {K V : Type} [DecidableEq K] (m : Map K V)
    (ch : Channel K V) : Except EcdsError Unit × Map K V × Channel K V :=
  match h : ch.tryRecv with
  | .ok (Action.add k v, ch') => ReadOnlyHashMap.processChanges (mapInsert m k v) ch'
  | .ok (Action.remove k, ch') => ReadOnlyHashMap.processChanges (mapErase m k) ch'
  | .ok (Action.clear, ch') => ReadOnlyHashMap.processChanges ([] : Map K V) ch'
  | .error .empty => (.ok (), m, ch)
  | .error .disconnected => (.error .disconnected, m, ch)
termination_by ch.queue.length
decreasing_by
  all_goals
    rcases ch with ⟨q, sa, ra, st⟩
    rcases q with _ | ⟨b, rest⟩ <;> simp [Channel.tryRecv] at h
    · cases sa <;> simp_all
    · obtain ⟨h1, h2⟩ := h
      subst h2
      simp

/-- ReadOnlyHashMap::get: drain the channel (the ? operator propagates a
Disconnected error, keeping whatever the drain already applied), then answer
from the replica. -/
def ReadOnlyHashMap.get {K V : Type} [DecidableEq K] (m : Map K V) (ch : Channel K V)
    (k : K) : Except EcdsError (Option V) × Map K V × Channel K V :=
  match ReadOnlyHashMap.processChanges m ch with
  | (.ok _, m', ch') => (.ok (mapGet m' k), m', ch')
  | (.error e, m', ch') => (.error e, m', ch')

/-- ReadOnlyHashMap::contains_key: same drain-then-answer shape. -/
def ReadOnlyHashMap.containsKey {K V : Type} [DecidableEq K] (m : Map K V)
    (ch : Channel K V) (k : K) : Except EcdsError Bool × Map K V × Channel K V :=
  match ReadOnlyHashMap.processChanges m ch with
  | (.ok _, m', ch') => (.ok (mapContains m' k), m', ch')
  | (.error e, m', ch') => (.error e, m', ch')

/-- Applying one mutation record to a map, exactly as the three arms of the
loop in process_changes apply it. -/
def applyAction {K V : Type} [DecidableEq K] (m : Map K V) : Action K V → Map K V
  | .add k v => mapInsert m k v
  | .remove k => mapErase m k
  | .clear => []

/-- Folding a list of records over a map, in order. -/
def drainList {K V : Type} [DecidableEq K] (m : Map K V) : List (Action K V) → Map K V
  | [] => m
  | a :: rest => drainList (applyAction m a) rest

/-- The whole system: the two handles' private maps plus the shared channel. -/
structure Sys (K V : Type) where
  writerMap : Map K V
  readerMap : Map K V
  ch : Channel K V
  deriving DecidableEq

/-- The keyvalue factory: a fresh channel with both ends alive, and both
handles starting from empty maps. -/
def keyvalue (K V : Type) : Sys K V :=
  { writerMap := [], readerMap := [],
    ch := { queue := [], senderAlive := true, receiverAlive := true, sent := [] } }

/-- WritableHashMap::insert lifted to the whole system. -/
def Sys.insert {K V : Type} [DecidableEq K] (s : Sys K V) (k : K) (v : V) :
    Except EcdsError (Option V) × Sys K V :=
  match WritableHashMap.insert s.writerMap s.ch k v with
  | (res, w', ch') => (res, { s with writerMap := w', ch := ch' })

/-- WritableHashMap::remove lifted to the whole system. -/
def Sys.remove {K V : Type} [DecidableEq K] (s : Sys K V) (k : K) :
    Except EcdsError (Option V) × Sys K V :=
  match WritableHashMap.remove s.writerMap s.ch k with
  | (res, w', ch') => (res, { s with writerMap := w', ch := ch' })

/-- WritableHashMap::clear lifted to the whole system. -/
def Sys.clear {K V : Type} [DecidableEq K] (s : Sys K V) :
    Except EcdsError Unit × Sys K V :=
  match WritableHashMap.clear s.writerMap s.ch with
  | (res, w', ch') => (res, { s with writerMap := w', ch := ch' })

/-- ReadOnlyHashMap::get lifted to the whole system. -/
def Sys.get {K V : Type} [DecidableEq K] (s : Sys K V) (k : K) :
    Except EcdsError (Option V) × Sys K V :=
  match ReadOnlyHashMap.get s.readerMap s.ch k with
  | (res, m', ch') => (res, { s with readerMap := m', ch := ch' })

/-- ReadOnlyHashMap::contains_key lifted to the whole system. -/
def Sys.containsKey {K V : Type} [DecidableEq K] (s : Sys K V) (k : K) :
    Except EcdsError Bool × Sys K V :=
  match ReadOnlyHashMap.containsKey s.readerMap s.ch k with
  | (res, m', ch') => (res, { s with readerMap := m', ch := ch' })

/-- Dropping the WritableHashMap closes the sender end of the channel. -/
def Sys.dropWriter {K V : Type} (s : Sys K V) : Sys K V :=
  { s with ch := { s.ch with senderAlive := false } }

/-- Dropping the ReadOnlyHashMap closes the receiver end of the channel. -/
def Sys.dropReader {K V : Type} (s : Sys K V) : Sys K V :=
  { s with ch := { s.ch with receiverAlive := false } }

/-- One observable step of the system: any call on a handle that still
exists, or dropping a handle that still exists.  In Rust an operation on a
dropped handle is impossible (the value has been moved), which the liveness
side conditions record. -/
inductive Step {K V : Type} [DecidableEq K] : Sys K V → Sys K V → Prop where
  | wInsert (s : Sys K V) (k : K) (v : V) (h : s.ch.senderAlive = true) :
      Step s (Sys.insert s k v).2
  | wRemove (s : Sys K V) (k : K) (h : s.ch.senderAlive = true) :
      Step s (Sys.remove s k).2
  | wClear (s : Sys K V) (h : s.ch.senderAlive = true) :
      Step s (Sys.clear s).2
  | rGet (s : Sys K V) (k : K) (h : s.ch.receiverAlive = true) :
      Step s (Sys.get s k).2
  | rContains (s : Sys K V) (k : K) (h : s.ch.receiverAlive = true) :
      Step s (Sys.containsKey s k).2
  | dropWriter (s : Sys K V) (h : s.ch.senderAlive = true) :
      Step s (Sys.dropWriter s)
  | dropReader (s : Sys K V) (h : s.ch.receiverAlive = true) :
      Step s (Sys.dropReader s)

/-- Reachability: any finite interleaving of steps. -/
def Steps {K V : Type} [DecidableEq K] : Sys K V → Sys K V → Prop :=
  Relation.ReflTransGen Step

/-- The replay invariant.  First part: the ghost history splits into the
records already consumed by the reader, whose replay from the empty map is
exactly the replica, followed by the still-pending queue.  Second part: while
the receiver end is alive every send so far has succeeded, so the
authoritative map is the replay of the full history. -/
def Inv {K V : Type} [DecidableEq K] (s : Sys K V) : Prop :=
  (∃ applied, s.ch.sent = applied ++ s.ch.queue ∧ s.readerMap = drainList [] applied) ∧
  (s.ch.receiverAlive = true → s.writerMap = drainList [] s.ch.sent)

theorem drainList_append {K V : Type} [DecidableEq K] (m : Map K V)
    (xs ys : List (Action K V)) :
    drainList m (xs ++ ys) = drainList (drainList m xs) ys := by
  induction xs generalizing m with
  | nil => simp [drainList]
  | cons a rest ih => simp [drainList, ih]

theorem mapErase_of_get_none {K V : Type} [DecidableEq K] (m : Map K V) (k : K)
    (h : mapGet m k = none) : mapErase m k = m := by
  induction m with
  | nil => simp [mapErase]
  | cons p rest ih =>
    obtain ⟨k', v⟩ := p
    by_cases hk : k' = k
    · simp [mapGet, hk] at h
    · simp [mapGet, hk] at h
      simp [mapErase, hk, ih h]

/-- Full characterization of the drain loop: it applies exactly the queued
records in order, leaves the queue empty, and reports Ok or Disconnected
according to whether the sender end is still alive. -/
theorem processChanges_eq {K V : Type} [DecidableEq K] (m : Map K V) (ch : Channel K V) :
    ReadOnlyHashMap.processChanges m ch =
      ((if ch.senderAlive then Except.ok () else Except.error EcdsError.disconnected),
        drainList m ch.queue, { ch with queue := [] }) := by
  rcases ch with ⟨q, sa, ra, st⟩
  induction q generalizing m with
  | nil =>
    rw [ReadOnlyHashMap.processChanges]
    cases sa <;> simp [Channel.tryRecv, drainList]
  | cons a rest ih =>
    rw [ReadOnlyHashMap.processChanges]
    cases a <;> simp [Channel.tryRecv, drainList, applyAction, ih]

theorem Sys.insert_alive {K V : Type} [DecidableEq K] (s : Sys K V) (k : K) (v : V)
    (h : s.ch.receiverAlive = true) :
    Sys.insert s k v =
      (Except.ok (mapGet s.writerMap k),
        { s with writerMap := mapInsert s.writerMap k v,
                 ch := { s.ch with queue := s.ch.queue ++ [Action.add k v],
                                   sent := s.ch.sent ++ [Action.add k v] } }) := by
  simp [Sys.insert, WritableHashMap.insert, Channel.send, h]

theorem Sys.insert_dead {K V : Type} [DecidableEq K] (s : Sys K V) (k : K) (v : V)
    (h : s.ch.receiverAlive = false) :
    Sys.insert s k v = (Except.error EcdsError.disconnected, s) := by
  simp [Sys.insert, WritableHashMap.insert, Channel.send, h]

theorem Sys.remove_alive {K V : Type} [DecidableEq K] (s : Sys K V) (k : K)
    (h : s.ch.receiverAlive = true) :
    Sys.remove s k =
      (Except.ok (mapGet s.writerMap k),
        { s with writerMap := mapErase s.writerMap k,
                 ch := { s.ch with queue := s.ch.queue ++ [Action.remove k],
                                   sent := s.ch.sent ++ [Action.remove k] } }) := by
  simp [Sys.remove, WritableHashMap.remove, Channel.send, h]

theorem Sys.remove_dead {K V : Type} [DecidableEq K] (s : Sys K V) (k : K)
    (h : s.ch.receiverAlive = false) :
    Sys.remove s k = (Except.error EcdsError.disconnected, s) := by
  simp [Sys.remove, WritableHashMap.remove, Channel.send, h]

theorem Sys.clear_alive {K V : Type} [DecidableEq K] (s : Sys K V)
    (h : s.ch.receiverAlive = true) :
    Sys.clear s =
      (Except.ok (),
        { s with writerMap := ([] : Map K V),
                 ch := { s.ch with queue := s.ch.queue ++ [Action.clear],
                                   sent := s.ch.sent ++ [Action.clear] } }) := by
  simp [Sys.clear, WritableHashMap.clear, Channel.send, h]

theorem Sys.clear_dead {K V : Type} [DecidableEq K] (s : Sys K V)
    (h : s.ch.receiverAlive = false) :
    Sys.clear s = (Except.error EcdsError.disconnected, { s with writerMap := ([] : Map K V) }) := by
  simp [Sys.clear, WritableHashMap.clear, Channel.send, h]

theorem Sys.get_eq {K V : Type} [DecidableEq K] (s : Sys K V) (k : K) :
    Sys.get s k =
      ((if s.ch.senderAlive then
          Except.ok (mapGet (drainList s.readerMap s.ch.queue) k)
        else Except.error EcdsError.disconnected),
        { s with readerMap := drainList s.readerMap s.ch.queue,
                 ch := { s.ch with queue := [] } }) := by
  rw [Sys.get, ReadOnlyHashMap.get, processChanges_eq]
  cases hsa : s.ch.senderAlive <;> simp [hsa]

theorem Sys.containsKey_eq {K V : Type} [DecidableEq K] (s : Sys K V) (k : K) :
    Sys.containsKey s k =
      ((if s.ch.senderAlive then
          Except.ok (mapContains (drainList s.readerMap s.ch.queue) k)
        else Except.error EcdsError.disconnected),
        { s with readerMap := drainList s.readerMap s.ch.queue,
                 ch := { s.ch with queue := [] } }) := by
  rw [Sys.containsKey, ReadOnlyHashMap.containsKey, processChanges_eq]
  cases hsa : s.ch.senderAlive <;> simp [hsa]

theorem Inv_keyvalue {K V : Type} [DecidableEq K] : Inv (keyvalue K V) := by
  refine ⟨⟨[], by simp [keyvalue], by simp [keyvalue, drainList]⟩, ?_⟩
  intro _
  simp [keyvalue, drainList]

theorem step_preserves_Inv {K V : Type} [DecidableEq K] {s s' : Sys K V}
    (hs : Step s s') (hinv : Inv s) : Inv s' := by
  obtain ⟨⟨applied, hsent, hreader⟩, hwriter⟩ := hinv
  cases hs with
  | wInsert k v h =>
    cases hra : s.ch.receiverAlive with
    | false =>
      rw [Sys.insert_dead s k v hra]
      exact ⟨⟨applied, hsent, hreader⟩, fun h2 => absurd h2 (by simp [hra])⟩
    | true =>
      rw [Sys.insert_alive s k v hra]
      refine ⟨⟨applied, by simp [hsent], hreader⟩, ?_⟩
      intro _
      show mapInsert s.writerMap k v = drainList [] (s.ch.sent ++ [Action.add k v])
      rw [hwriter hra, drainList_append]
      simp [drainList, applyAction]
  | wRemove k h =>
    cases hra : s.ch.receiverAlive with
    | false =>
      rw [Sys.remove_dead s k hra]
      exact ⟨⟨applied, hsent, hreader⟩, fun h2 => absurd h2 (by simp [hra])⟩
    | true =>
      rw [Sys.remove_alive s k hra]
      refine ⟨⟨applied, by simp [hsent], hreader⟩, ?_⟩
      intro _
      show mapErase s.writerMap k = drainList [] (s.ch.sent ++ [Action.remove k])
      rw [hwriter hra, drainList_append]
      simp [drainList, applyAction]
  | wClear h =>
    cases hra : s.ch.receiverAlive with
    | false =>
      rw [Sys.clear_dead s hra]
      exact ⟨⟨applied, hsent, hreader⟩, fun h2 => absurd h2 (by simp [hra])⟩
    | true =>
      rw [Sys.clear_alive s hra]
      refine ⟨⟨applied, by simp [hsent], hreader⟩, ?_⟩
      intro _
      show ([] : Map K V) = drainList [] (s.ch.sent ++ [Action.clear])
      rw [drainList_append]
      simp [drainList, applyAction]
  | rGet k h =>
    rw [Sys.get_eq]
    refine ⟨⟨s.ch.sent, by simp, ?_⟩, fun h2 => hwriter h2⟩
    show drainList s.readerMap s.ch.queue = drainList [] s.ch.sent
    rw [hreader, ← drainList_append, ← hsent]
  | rContains k h =>
    rw [Sys.containsKey_eq]
    refine ⟨⟨s.ch.sent, by simp, ?_⟩, fun h2 => hwriter h2⟩
    show drainList s.readerMap s.ch.queue = drainList [] s.ch.sent
    rw [hreader, ← drainList_append, ← hsent]
  | dropWriter h =>
    exact ⟨⟨applied, hsent, hreader⟩, fun h2 => hwriter h2⟩
  | dropReader h =>
    exact ⟨⟨applied, hsent, hreader⟩, fun h2 => absurd h2 (by simp [Sys.dropReader])⟩

theorem steps_preserves_Inv {K V : Type} [DecidableEq K] {s s' : Sys K V}
    (hs : Steps s s') (hinv : Inv s) : Inv s' := by
  induction hs with
  | refl => exact hinv
  | tail _ hbc ih => exact step_preserves_Inv hbc ih

theorem reach_Inv {K V : Type} [DecidableEq K] {s : Sys K V}
    (hs : Steps (keyvalue K V) s) : Inv s :=
  steps_preserves_Inv hs Inv_keyvalue

theorem mapGet_mapInsert_self {K V : Type} [DecidableEq K] (m : Map K V) (k : K) (v : V) :
    mapGet (mapInsert m k v) k = some v := by
  simp [mapInsert, mapGet]

theorem mapGet_mapErase_self {K V : Type} [DecidableEq K] (m : Map K V) (k : K) :
    mapGet (mapErase m k) k = none := by
  induction m with
  | nil => simp [mapErase, mapGet]
  | cons p rest ih =>
    obtain ⟨k', v⟩ := p
    by_cases hk : k' = k <;> simp [mapErase, mapGet, hk, ih]

theorem Sys.get_error {K V : Type} [DecidableEq K] {s : Sys K V} {k : K} {e : EcdsError}
    (h : (Sys.get s k).1 = Except.error e) : s.ch.senderAlive = false := by
  cases hsa : s.ch.senderAlive with
  | false => rfl
  | true => rw [Sys.get_eq, hsa] at h; simp at h

theorem Sys.containsKey_error {K V : Type} [DecidableEq K] {s : Sys K V} {k : K}
    {e : EcdsError} (h : (Sys.containsKey s k).1 = Except.error e) :
    s.ch.senderAlive = false := by
  cases hsa : s.ch.senderAlive with
  | false => rfl
  | true => rw [Sys.containsKey_eq, hsa] at h; simp at h

theorem Sys.get_dead {K V : Type} [DecidableEq K] (s : Sys K V) (k : K)
    (h : s.ch.senderAlive = false) :
    (Sys.get s k).1 = Except.error EcdsError.disconnected := by
  rw [Sys.get_eq, h]
  rfl

theorem Sys.containsKey_dead {K V : Type} [DecidableEq K] (s : Sys K V) (k : K)
    (h : s.ch.senderAlive = false) :
    (Sys.containsKey s k).1 = Except.error EcdsError.disconnected := by
  rw [Sys.containsKey_eq, h]
  rfl

/-- Once the sender end is gone and the queue fully drained, no step restores
either: writer operations (including dropping the writer) require the writer
handle to still exist, and reader drains keep the queue empty. -/
theorem step_preserves_dead {K V : Type} [DecidableEq K] {s s' : Sys K V} (hs : Step s s')
    (hq : s.ch.queue = []) (hsa : s.ch.senderAlive = false) :
    s'.ch.queue = [] ∧ s'.ch.senderAlive = false := by
  cases hs with
  | wInsert k v h => rw [h] at hsa; cases hsa
  | wRemove k h => rw [h] at hsa; cases hsa
  | wClear h => rw [h] at hsa; cases hsa
  | rGet k h => rw [Sys.get_eq]; exact ⟨rfl, hsa⟩
  | rContains k h => rw [Sys.containsKey_eq]; exact ⟨rfl, hsa⟩
  | dropWriter h => rw [h] at hsa; cases hsa
  | dropReader h => exact ⟨hq, hsa⟩

theorem steps_preserves_dead {K V : Type} [DecidableEq K] {s s' : Sys K V} (hs : Steps s s')
    (hq : s.ch.queue = []) (hsa : s.ch.senderAlive = false) :
    s'.ch.queue = [] ∧ s'.ch.senderAlive = false := by
  induction hs with
  | refl => exact ⟨hq, hsa⟩
  | tail _ hbc ih => exact step_preserves_dead hbc ih.1 ih.2

/-- Claim C1 counterexample: with the Read Handle already dropped, a Write
Handle insert(0, 1) does return the Disconnected error, but it does NOT
update the local authoritative map: a subsequent local get(0) sees no value
instead of 1.  This refutes the claim that every mutating operation applies
the change to the local map before forwarding the record (insert sends first
and only mutates the local map when the send succeeds). -/
theorem C1_counterexample :
    (Sys.insert (Sys.dropReader (keyvalue Nat Nat)) 0 1).1
        = Except.error EcdsError.disconnected
      ∧ WritableHashMap.get
          (Sys.insert (Sys.dropReader (keyvalue Nat Nat)) 0 1).2.writerMap 0 = none
      ∧ ¬ WritableHashMap.get
          (Sys.insert (Sys.dropReader (keyvalue Nat Nat)) 0 1).2.writerMap 0 = some 1 := by
  refine ⟨rfl, rfl, ?_⟩
  decide

/-- Claim C1 (amended): clear empties the local authoritative map before
forwarding the ClearAll record, but insert and remove forward first and
mutate the local map only when forwarding succeeds.  In particular, after
the Read Handle has been dropped, insert(k, v) returns Disconnected and
leaves the Write Handle's local map unchanged (a later local get(k) does not
see v unless it was already bound to v); remove(k) likewise leaves the map
unchanged; clear still empties the local map while returning Disconnected. -/
theorem C1_amended {K V : Type} [DecidableEq K] (s : Sys K V) (k : K) (v : V)
    (h : s.ch.receiverAlive = false) :
    (Sys.insert s k v).1 = Except.error EcdsError.disconnected
      ∧ (Sys.insert s k v).2.writerMap = s.writerMap
      ∧ (Sys.remove s k).1 = Except.error EcdsError.disconnected
      ∧ (Sys.remove s k).2.writerMap = s.writerMap
      ∧ (Sys.clear s).1 = Except.error EcdsError.disconnected
      ∧ (Sys.clear s).2.writerMap = ([] : Map K V) := by
  rw [Sys.insert_dead s k v h, Sys.remove_dead s k h, Sys.clear_dead s h]
  exact ⟨rfl, rfl, rfl, rfl, rfl, rfl⟩

theorem C1_amended_witness :
    (Sys.insert (Sys.dropReader (keyvalue Nat Nat)) 0 1).1
        = Except.error EcdsError.disconnected
      ∧ (Sys.insert (Sys.dropReader (keyvalue Nat Nat)) 0 1).2.writerMap
          = (Sys.dropReader (keyvalue Nat Nat)).writerMap
      ∧ (Sys.remove (Sys.dropReader (keyvalue Nat Nat)) 0).1
          = Except.error EcdsError.disconnected
      ∧ (Sys.remove (Sys.dropReader (keyvalue Nat Nat)) 0).2.writerMap
          = (Sys.dropReader (keyvalue Nat Nat)).writerMap
      ∧ (Sys.clear (Sys.dropReader (keyvalue Nat Nat))).1
          = Except.error EcdsError.disconnected
      ∧ (Sys.clear (Sys.dropReader (keyvalue Nat Nat))).2.writerMap = ([] : Map Nat Nat) :=
  C1_amended (Sys.dropReader (keyvalue Nat Nat)) 0 1 rfl

/-- Claim C4: every Read Handle get or contains_key first drains all
currently available records from the channel and applies them in order
(Insert overwrites, Remove deletes the key and is a no-op when the key is
absent, ClearAll empties the replica) and only then answers from the updated
replica.  In particular a reader that has drained nothing yet still answers
from the fully drained replica. -/
theorem C4_drain_before_answer {K V : Type} [DecidableEq K] (m : Map K V)
    (ch : Channel K V) (k : K) (h : ch.senderAlive = true) :
    ReadOnlyHashMap.get m ch k
        = (Except.ok (mapGet (drainList m ch.queue) k), drainList m ch.queue,
            { ch with queue := [] })
      ∧ ReadOnlyHashMap.containsKey m ch k
        = (Except.ok (mapContains (drainList m ch.queue) k), drainList m ch.queue,
            { ch with queue := [] })
      ∧ (∀ v : V, mapGet (applyAction m (Action.add k v)) k = some v)
      ∧ mapGet (applyAction m (Action.remove k)) k = none
      ∧ (mapGet m k = none → applyAction m (Action.remove k) = m)
      ∧ applyAction m Action.clear = ([] : Map K V) := by
  refine ⟨?_, ?_, ?_, ?_, ?_, rfl⟩
  · rw [ReadOnlyHashMap.get, processChanges_eq, h]
    rfl
  · rw [ReadOnlyHashMap.containsKey, processChanges_eq, h]
    rfl
  · intro v
    exact mapGet_mapInsert_self m k v
  · exact mapGet_mapErase_self m k
  · exact mapErase_of_get_none m k

/-- Claim C4 witness: the spec scenario.  The writer has sent Insert("a",1)
and Insert("b",2); without any earlier drain, a single reader get("a")
returns 1, not absent. -/
theorem C4_witness :
    (ReadOnlyHashMap.get ([] : Map String Nat)
        { queue := [Action.add "a" 1, Action.add "b" 2], senderAlive := true,
          receiverAlive := true, sent := [Action.add "a" 1, Action.add "b" 2] } "a").1
      = Except.ok (some 1) := by
  rw [(C4_drain_before_answer ([] : Map String Nat)
    { queue := [Action.add "a" 1, Action.add "b" 2], senderAlive := true,
      receiverAlive := true, sent := [Action.add "a" 1, Action.add "b" 2] } "a" rfl).1]
  rfl

/-- Claim C5: when during a drain the channel reports that the producer side
is permanently closed, get and contains_key return Disconnected; every
record that was queued is still applied to the replica before the closure is
detected, and the replica is not rolled back. -/
theorem C5_reader_disconnect {K V : Type} [DecidableEq K] (m : Map K V)
    (ch : Channel K V) (k : K) (h : ch.senderAlive = false) :
    ReadOnlyHashMap.get m ch k
        = (Except.error EcdsError.disconnected, drainList m ch.queue, { ch with queue := [] })
      ∧ ReadOnlyHashMap.containsKey m ch k
        = (Except.error EcdsError.disconnected, drainList m ch.queue,
            { ch with queue := [] }) := by
  constructor
  · rw [ReadOnlyHashMap.get, processChanges_eq, h]
    rfl
  · rw [ReadOnlyHashMap.containsKey, processChanges_eq, h]
    rfl

/-- Claim C5 witness: the writer sent Insert(7, 5) and was then dropped; the
reader's get(7) fails with Disconnected, yet the record was applied and
stays applied in the replica. -/
theorem C5_witness :
    ReadOnlyHashMap.get ([] : Map Nat Nat)
        { queue := [Action.add 7 5], senderAlive := false, receiverAlive := true,
          sent := [Action.add 7 5] } 7
      = (Except.error EcdsError.disconnected,
          drainList ([] : Map Nat Nat) [Action.add 7 5],
          { queue := [], senderAlive := false, receiverAlive := true,
            sent := [Action.add 7 5] }) :=
  (C5_reader_disconnect ([] : Map Nat Nat)
    { queue := [Action.add 7 5], senderAlive := false, receiverAlive := true,
      sent := [Action.add 7 5] } 7 rfl).1

/-- Claim C6: a successful Write Handle insert(k, v) returns the previous
value stored under k (none when k was absent), and afterwards the
authoritative map stores v under k. -/
theorem C6_insert_returns_previous {K V : Type} [DecidableEq K] (s : Sys K V) (k : K)
    (v : V) (h : s.ch.receiverAlive = true) :
    (Sys.insert s k v).1 = Except.ok (WritableHashMap.get s.writerMap k)
      ∧ WritableHashMap.get (Sys.insert s k v).2.writerMap k = some v := by
  rw [Sys.insert_alive s k v h]
  exact ⟨rfl, mapGet_mapInsert_self s.writerMap k v⟩

theorem C6_witness :
    (Sys.insert (keyvalue Nat Nat) 3 4).1
        = Except.ok (WritableHashMap.get (keyvalue Nat Nat).writerMap 3)
      ∧ WritableHashMap.get (Sys.insert (keyvalue Nat Nat) 3 4).2.writerMap 3 = some 4 :=
  C6_insert_returns_previous (keyvalue Nat Nat) 3 4 rfl

/-- Claim C7: removing a key that is absent from the Write Handle's map
succeeds with no previous value; once the reader drains the resulting Remove
record (here from a replica that was in sync with the writer, so the key is
absent there too), the replica map is unchanged. -/
theorem C7_remove_absent {K V : Type} [DecidableEq K] (s : Sys K V) (k : K)
    (h1 : s.ch.receiverAlive = true) (h2 : mapGet s.writerMap k = none)
    (h3 : s.ch.queue = []) (h4 : s.readerMap = s.writerMap) :
    (Sys.remove s k).1 = Except.ok none
      ∧ (ReadOnlyHashMap.processChanges (Sys.remove s k).2.readerMap
          (Sys.remove s k).2.ch).2.1 = s.readerMap := by
  rw [Sys.remove_alive s k h1]
  refine ⟨by rw [h2], ?_⟩
  rw [processChanges_eq]
  show drainList s.readerMap (s.ch.queue ++ [Action.remove k]) = s.readerMap
  rw [h3]
  show mapErase s.readerMap k = s.readerMap
  rw [h4]
  exact mapErase_of_get_none s.writerMap k h2

theorem C7_witness :
    (Sys.remove (keyvalue Nat Nat) 9).1 = Except.ok none
      ∧ (ReadOnlyHashMap.processChanges (Sys.remove (keyvalue Nat Nat) 9).2.readerMap
          (Sys.remove (keyvalue Nat Nat) 9).2.ch).2.1 = (keyvalue Nat Nat).readerMap :=
  C7_remove_absent (keyvalue Nat Nat) 9 rfl rfl rfl rfl

/-- Claim C8: clearing a Write Handle whose map is already empty leaves the
map empty and still forwards a ClearAll record on the channel; applying a
ClearAll record to an already-empty replica leaves it empty. -/
theorem C8_idempotent_clear {K V : Type} [DecidableEq K] (s : Sys K V)
    (h1 : s.writerMap = ([] : Map K V)) (h2 : s.ch.receiverAlive = true) :
    (Sys.clear s).1 = Except.ok ()
      ∧ (Sys.clear s).2.writerMap = ([] : Map K V)
      ∧ (Sys.clear s).2.ch.queue = s.ch.queue ++ [Action.clear]
      ∧ applyAction ([] : Map K V) Action.clear = ([] : Map K V) := by
  rw [Sys.clear_alive s h2]
  exact ⟨rfl, rfl, rfl, rfl⟩

theorem C8_witness :
    (Sys.clear (keyvalue Nat Nat)).1 = Except.ok ()
      ∧ (Sys.clear (keyvalue Nat Nat)).2.writerMap = ([] : Map Nat Nat)
      ∧ (Sys.clear (keyvalue Nat Nat)).2.ch.queue
          = (keyvalue Nat Nat).ch.queue ++ [Action.clear]
      ∧ applyAction ([] : Map Nat Nat) Action.clear = ([] : Map Nat Nat) :=
  C8_idempotent_clear (keyvalue Nat Nat) rfl rfl

/-- Claim C10: the drain loop terminates on every finite queue, consuming
one queued record per iteration: process_changes applies exactly the queued
records in order, leaves the queue empty, and exits with Ok when the channel
reports empty (sender still alive) and with Disconnected when the sender is
gone. -/
theorem C10_drain_terminates {K V : Type} [DecidableEq K] (m : Map K V)
    (ch : Channel K V) :
    ReadOnlyHashMap.processChanges m ch
      = ((if ch.senderAlive then Except.ok () else Except.error EcdsError.disconnected),
          drainList m ch.queue, { ch with queue := [] }) :=
  processChanges_eq m ch

/-- Claim C2: causal replay.  For any reachable system state in which the
Read Handle still exists (equivalently: every writer mutation so far
succeeded, since a send fails only once the receiver end is gone and
liveness never returns), a reader drain performed now makes the replica map
equal the authoritative map, regardless of how drains and sends were
interleaved before. -/
theorem C2_causal_replay {K V : Type} [DecidableEq K] (s : Sys K V) (k : K)
    (hreach : Steps (keyvalue K V) s) (halive : s.ch.receiverAlive = true) :
    (Sys.get s k).2.readerMap = (Sys.get s k).2.writerMap
      ∧ (Sys.get s k).2.writerMap = s.writerMap := by
  obtain ⟨⟨applied, hsent, hreader⟩, hwriter⟩ := reach_Inv hreach
  rw [Sys.get_eq]
  refine ⟨?_, rfl⟩
  show drainList s.readerMap s.ch.queue = s.writerMap
  rw [hreader, ← drainList_append, ← hsent, hwriter halive]

theorem C2_witness :
    (Sys.get ((Sys.insert ((Sys.insert (keyvalue Nat Nat) 1 10).2) 2 20).2) 1).2.readerMap
        = (Sys.get ((Sys.insert ((Sys.insert (keyvalue Nat Nat) 1 10).2) 2 20).2)
            1).2.writerMap
      ∧ (Sys.get ((Sys.insert ((Sys.insert (keyvalue Nat Nat) 1 10).2) 2 20).2)
            1).2.writerMap
        = ((Sys.insert ((Sys.insert (keyvalue Nat Nat) 1 10).2) 2 20).2).writerMap :=
  C2_causal_replay ((Sys.insert ((Sys.insert (keyvalue Nat Nat) 1 10).2) 2 20).2) 1
    (Relation.ReflTransGen.tail
      (Relation.ReflTransGen.tail Relation.ReflTransGen.refl
        (Step.wInsert (keyvalue Nat Nat) 1 10 rfl))
      (Step.wInsert ((Sys.insert (keyvalue Nat Nat) 1 10).2) 2 20 rfl))
    rfl

/-- Claim C3: causal-prefix invariant.  In every reachable state the replica
map is the replay, from the empty map, of exactly some prefix of the records
sent so far in issuance order: nothing is reordered, applied early, or
skipped. -/
theorem C3_causal_prefix {K V : Type} [DecidableEq K] (s : Sys K V)
    (hreach : Steps (keyvalue K V) s) :
    ∃ n, n ≤ s.ch.sent.length
      ∧ s.readerMap = drainList ([] : Map K V) (List.take n s.ch.sent) := by
  obtain ⟨⟨applied, hsent, hreader⟩, -⟩ := reach_Inv hreach
  refine ⟨applied.length, ?_, ?_⟩
  · rw [hsent]
    simp
  · rw [hsent, List.take_left]
    exact hreader

theorem C3_witness :
    ∃ n, n ≤ ((Sys.insert (keyvalue Nat Nat) 1 10).2).ch.sent.length
      ∧ ((Sys.insert (keyvalue Nat Nat) 1 10).2).readerMap
        = drainList ([] : Map Nat Nat)
            (List.take n ((Sys.insert (keyvalue Nat Nat) 1 10).2).ch.sent) :=
  C3_causal_prefix ((Sys.insert (keyvalue Nat Nat) 1 10).2)
    (Relation.ReflTransGen.tail Relation.ReflTransGen.refl
      (Step.wInsert (keyvalue Nat Nat) 1 10 rfl))

/-- Claim C9: once a Read Handle query has returned the Disconnected error,
every later get or contains_key on that handle returns Disconnected as
well.  A query errors only when the sender end is gone and the queue was
fully drained; no step can revive the sender or enqueue a new record, so
the handle is permanently disconnected. -/
theorem C9_disconnected_permanent {K V : Type} [DecidableEq K] (s s₁ s₂ : Sys K V)
    (k₀ k : K) (e : EcdsError)
    (herr : (Sys.get s k₀).1 = Except.error e ∧ s₁ = (Sys.get s k₀).2
          ∨ (Sys.containsKey s k₀).1 = Except.error e ∧ s₁ = (Sys.containsKey s k₀).2)
    (hsteps : Steps s₁ s₂) :
    (Sys.get s₂ k).1 = Except.error EcdsError.disconnected
      ∧ (Sys.containsKey s₂ k).1 = Except.error EcdsError.disconnected := by
  have hdead : s₁.ch.queue = [] ∧ s₁.ch.senderAlive = false := by
    rcases herr with ⟨he, hs1⟩ | ⟨he, hs1⟩
    · have hsa := Sys.get_error he
      subst hs1
      rw [Sys.get_eq]
      exact ⟨rfl, hsa⟩
    · have hsa := Sys.containsKey_error he
      subst hs1
      rw [Sys.containsKey_eq]
      exact ⟨rfl, hsa⟩
  have hdead2 := steps_preserves_dead hsteps hdead.1 hdead.2
  exact ⟨Sys.get_dead s₂ k hdead2.2, Sys.containsKey_dead s₂ k hdead2.2⟩

theorem C9_witness :
    (Sys.get (Sys.get (Sys.dropWriter (keyvalue Nat Nat)) 0).2 3).1
        = Except.error EcdsError.disconnected
      ∧ (Sys.containsKey (Sys.get (Sys.dropWriter (keyvalue Nat Nat)) 0).2 3).1
        = Except.error EcdsError.disconnected :=
  C9_disconnected_permanent (Sys.dropWriter (keyvalue Nat Nat))
    (Sys.get (Sys.dropWriter (keyvalue Nat Nat)) 0).2
    (Sys.get (Sys.dropWriter (keyvalue Nat Nat)) 0).2 0 3 EcdsError.disconnected
    (Or.inl ⟨Sys.get_dead (Sys.dropWriter (keyvalue Nat Nat)) 0 rfl, rfl⟩)
    Relation.ReflTransGen.refl

end Ecds
